import Mathlib

/-!
Shallow embedding of the mosdns request-processing core:
the cache plugin (`src/dispatcher/plugin/cache/cache.go`), the plugin
capability wrapper (`handler.PluginWrapper`) and the hosts matcher.

Machine integers of the source (uint32 TTLs, uint16 ids) are modelled as
`Nat`: no arithmetic in the translated code can overflow the source's
types for the values that occur (TTLs are clamped to 604800 < 2^32 before
any arithmetic, ids are only copied).
-/

namespace Mosdns

/-- A DNS resource record, reduced to the fields the core reads or writes:
its TTL and its rdata (an address literal for A/AAAA records). -/
structure RR where
  ttl : Nat
  rdata : String
deriving DecidableEq, Repr

/-- A DNS message, reduced to the fields `cache.go` and the hosts engine
read or write: header id, response code, truncation flag, the question
(name and type) and the answer section. -/
structure Msg where
  id : Nat
  rcode : Nat
  truncated : Bool
  qname : String
  qtype : Nat
  answer : List RR
deriving DecidableEq, Repr

/-- `dns.RcodeSuccess`. -/
def RcodeSuccess : Nat := 0

/-- `handler.ContextStatus`. -/
inductive ContextStatus
  | unset
  | responded
  | rejected
  | serverFailed
deriving DecidableEq, Repr

/-- The response-relevant part of a `handler.Context`: query, current
response (nilable) and status. -/
structure Core where
  q : Msg
  r : Option Msg
  status : ContextStatus
deriving DecidableEq, Repr

/-- A deferred action attached to the context. The cache plugin attaches
`deferCacheStore` values, identified by their key. -/
inductive DeferredAction
  | cacheStore (key : String)
deriving DecidableEq, Repr

/-- A `handler.Context`: query/response core plus the ordered list of
deferred actions registered by `DeferExec`. -/
structure QCtx where
  core : Core
  deferred : List DeferredAction
deriving DecidableEq, Repr

/-- Outcome of `cache.DnsCache.Get` as `searchAndReply` observes it:
a backend error, a miss (nil response), or a hit carrying the stored
response and the remaining TTL in seconds. -/
inductive GetOutcome
  | backendErr
  | miss
  | hit (r : Msg) (ttlSeconds : Nat)
deriving Repr

/-- One `Store` call issued to the cache backend: key, message and TTL in
seconds. -/
structure StoreCall where
  key : String
  msg : Msg
  ttl : Nat
deriving DecidableEq, Repr

/-- The cache backend as the plugin sees it: an oracle for `Get` results,
an oracle telling whether a given `Store` call fails, and the trace of
`Store` calls issued so far. -/
structure CacheState where
  getOracle : String → GetOutcome
  storeFails : String → Msg → Nat → Bool
  trace : List StoreCall

/-- Errors surfaced by the cache subsystem's collaborators. -/
inductive CacheErr
  | storeFailed
  | chainErr (n : Nat)
deriving DecidableEq, Repr

/-- `maxTTL uint32 = 3600 * 24 * 7` of `cache.go`. -/
def maxTTL : Nat := 3600 * 24 * 7

/-- Modelled from the spec: `dnsutils.GetMinimalTTL` is not under `src/`;
the spec's glossary defines the minimal TTL as "the smallest per-record
time-to-live across a response's answer section". -/
def GetMinimalTTL (r : Msg) : Nat :=
  match r.answer with
  | [] => 0
  | rr :: rest => rest.foldl (fun a x => min a x.ttl) rr.ttl

/-- Modelled from the spec: `dnsutils.SetTTL` is not under `src/`; the
spec says the hit path "recompute[s] every record's advertised TTL as the
remaining time-to-live", so `SetTTL` sets every record's TTL to the given
value. -/
def SetTTL (r : Msg) (ttl : Nat) : Msg :=
  { r with answer := r.answer.map (fun rr => { rr with ttl := ttl }) }

/-- `deferCacheStore.exec` of `cache.go`: if the final response is
non-nil, has rcode success, is not truncated and has a non-empty answer
section, issue a `Store` with the minimal TTL clamped to `maxTTL`;
otherwise do nothing. Returns the backend's error, if any. -/
def deferCacheStoreExec (st : CacheState) (key : String) (core : Core) :
    CacheState × Option CacheErr :=
  match core.r with
  | some r =>
      if r.rcode = RcodeSuccess ∧ r.truncated = false ∧ r.answer ≠ [] then
        let ttl0 := GetMinimalTTL r
        let ttl := if ttl0 > maxTTL then maxTTL else ttl0
        ({ st with trace := st.trace ++ [⟨key, r, ttl⟩] },
         if st.storeFails key r ttl then some .storeFailed else none)
      else (st, none)
  | none => (st, none)

/-- `deferCacheStore.Exec` of `cache.go`: runs `exec`, logs a failure at
warn level and always returns a nil error. -/
def deferCacheStoreRun (st : CacheState) (key : String) (core : Core) :
    CacheState × Option CacheErr :=
  ((deferCacheStoreExec st key core).1, none)

/-- `cachePlugin.searchAndReply` of `cache.go`. A key-derivation failure
(`GetMsgKey` returns `none`) yields `("", false)` and leaves the context
untouched; a backend `Get` error or a miss yields `(key, false)`; a hit
overwrites the cached response's id with the query's id, sets every
record's TTL to the remaining TTL, sets the context status to Responded
and yields `(key, true)`. -/
def searchAndReply (getMsgKey : Msg → Option String) (st : CacheState)
    (core : Core) : (String × Bool) × Core :=
  match getMsgKey core.q with
  | none => (("", false), core)
  | some key =>
      match st.getOracle key with
      | .backendErr => ((key, false), core)
      | .miss => ((key, false), core)
      | .hit r ttl =>
          ((key, true),
           { core with r := some (SetTTL { r with id := core.q.id } ttl),
                       status := .responded })

/-- `cachePlugin.ExecES` of `cache.go`: on a hit return
`(earlyStop := true, err := nil)`; on a miss with a non-empty key append a
`deferCacheStore` action to the context's deferred list and return
`(false, nil)`. -/
def cacheExecES (getMsgKey : Msg → Option String) (st : CacheState)
    (qCtx : QCtx) : (Bool × Option CacheErr) × QCtx × CacheState :=
  match searchAndReply getMsgKey st qCtx.core with
  | ((key, cacheHit), core2) =>
      if cacheHit then ((true, none), { qCtx with core := core2 }, st)
      else if key ≠ "" then
        ((false, none),
         ⟨core2, qCtx.deferred ++ [.cacheStore key]⟩, st)
      else ((false, none), { qCtx with core := core2 }, st)

/-- The rest of the plugin chain as `pipeCtx.ExecNextPlugin` exposes it:
a transformer of the context core and the backend state that may fail. -/
abbrev ChainFn : Type :=
  Core → CacheState → (Core × CacheState) × Option CacheErr

/-- `cachePlugin.Connect` of `cache.go`: search; on a hit return nil
without running the rest of the chain; on a miss run the chain, propagate
its error, and otherwise (with a non-empty key) perform the store
synchronously via `deferCacheStore.Exec`. -/
def cacheConnect (getMsgKey : Msg → Option String) (next : ChainFn)
    (st : CacheState) (core : Core) : (Core × CacheState) × Option CacheErr :=
  match searchAndReply getMsgKey st core with
  | ((key, cacheHit), core1) =>
      if cacheHit then ((core1, st), none)
      else
        match next core1 st with
        | ((core2, st2), some e) => ((core2, st2), some e)
        | ((core2, st2), none) =>
            if key ≠ "" then
              ((core2, (deferCacheStoreRun st2 key core2).1), none)
            else ((core2, st2), none)

/-- Modelled from the spec: the pipeline's finalize phase (the handler
chain driver is not under `src/`): "run each in order, isolate failures".
Runs the context's deferred actions in attachment order against the final
core. -/
def runDeferred (st : CacheState) (core : Core) :
    List DeferredAction → CacheState
  | [] => st
  | .cacheStore key :: rest =>
      runDeferred (deferCacheStoreRun st key core).1 core rest

/-- Modelled from the spec: the deferred-mechanism pipeline around the
cache plugin (the handler chain driver is not under `src/`): a fresh
context enters `ExecES`; at early-stop the chain is skipped; otherwise the
rest of the chain runs; deferred actions attached during the forward pass
are executed after the pipeline completes (or at early-stop), in
attachment order. -/
def pipelineWithDeferred (getMsgKey : Msg → Option String) (next : ChainFn)
    (st : CacheState) (core : Core) : (Core × CacheState) × Option CacheErr :=
  match cacheExecES getMsgKey st ⟨core, []⟩ with
  | ((early, _), qCtx1, st1) =>
      if early then
        ((qCtx1.core, runDeferred st1 qCtx1.core qCtx1.deferred), none)
      else
        match next qCtx1.core st1 with
        | ((core2, st2), some e) => ((core2, st2), some e)
        | ((core2, st2), none) =>
            ((core2, runDeferred st2 core2 qCtx1.deferred), none)

/-- A sample query message for concrete witnesses. -/
def sampleQuery : Msg := ⟨7, 0, false, "example.com.", 1, []⟩

/-- A sample successful response with one answer record. -/
def sampleResp : Msg := ⟨7, 0, false, "example.com.", 1, [⟨300, "1.2.3.4"⟩]⟩

/-- A backend state with no stored calls whose `Get` always misses. -/
def emptyCacheState : CacheState := ⟨fun _ => .miss, fun _ _ _ => false, []⟩

/-- A backend state whose `Get` always fails. -/
def getErrCacheState : CacheState :=
  ⟨fun _ => .backendErr, fun _ _ _ => true, []⟩

/-- A backend state whose `Get` always hits with `sampleResp` and 42
seconds remaining. -/
def hitCacheState : CacheState := ⟨fun _ => .hit sampleResp 42, fun _ _ _ => false, []⟩

/-- A fresh context core carrying `sampleQuery`. -/
def sampleCore : Core := ⟨sampleQuery, none, .unset⟩

/-- A context core holding `sampleResp` as the final response. -/
def respondedCore : Core := ⟨sampleQuery, some sampleResp, .responded⟩

/-- A key function that always succeeds with the key "k". -/
def constKeyFn : Msg → Option String := fun _ => some "k"

/-- A chain that does nothing and never fails. -/
def idChain : ChainFn := fun c s => ((c, s), none)

/-- C1: the deferred store action issues a backend store if and only if
the final response is non-nil, has a success response code, is not
truncated, and carries at least one answer record; in every other case
the backend trace is unchanged. -/
theorem cache_deferred_store_gating (st : CacheState) (key : String) (core : Core) :
    (deferCacheStoreRun st key core).1.trace ≠ st.trace ↔
      ∃ r, core.r = some r ∧ r.rcode = RcodeSuccess ∧ r.truncated = false ∧
        r.answer ≠ [] := by
  unfold deferCacheStoreRun deferCacheStoreExec
  cases hr : core.r with
  | none => simp
  | some r =>
      by_cases hc : r.rcode = RcodeSuccess ∧ r.truncated = false ∧ r.answer ≠ []
      · simp only [hc, if_true]
        simp [hc.1, hc.2.1, hc.2.2]
      · simp only [hc, if_false]
        simp only [ne_eq, not_true_eq_false, false_iff, not_exists, not_and]
        intro x hx h1 h2
        rw [Option.some_inj] at hx
        subst hx
        intro h3
        exact hc ⟨h1, h2, h3⟩

/-- C2: for a response the deferred store action does store, the TTL
passed to the backend is the minimum TTL across the response's records
capped at 604800 seconds (one week), and hence never exceeds 604800. -/
theorem cache_stored_ttl (st : CacheState) (key : String) (core : Core) (r : Msg)
    (hr : core.r = some r) (hc : r.rcode = RcodeSuccess)
    (ht : r.truncated = false) (ha : r.answer ≠ []) :
    (deferCacheStoreRun st key core).1.trace =
      st.trace ++ [⟨key, r, min (GetMinimalTTL r) 604800⟩] ∧
    min (GetMinimalTTL r) 604800 ≤ 604800 := by
  have hmin : (if GetMinimalTTL r > maxTTL then maxTTL else GetMinimalTTL r) =
      min (GetMinimalTTL r) 604800 := by
    unfold maxTTL
    split <;> omega
  constructor
  · unfold deferCacheStoreRun deferCacheStoreExec
    rw [hr]
    simp only [hc, ht, ha, and_true, if_true, RcodeSuccess, ne_eq,
      not_false_eq_true]
    rw [hmin]
  · exact Nat.min_le_right _ _

/-- C2 witness: the deferred store on a concrete successful response
stores TTL `min 300 604800 = 300`. -/
theorem cache_stored_ttl_witness :
    (deferCacheStoreRun emptyCacheState "k" respondedCore).1.trace =
      emptyCacheState.trace ++
        [⟨"k", sampleResp, min (GetMinimalTTL sampleResp) 604800⟩] ∧
    min (GetMinimalTTL sampleResp) 604800 ≤ 604800 :=
  cache_stored_ttl emptyCacheState "k" respondedCore sampleResp rfl rfl rfl
    (by decide)

/-- C3: on a cache hit, `ExecES` sets the response to the cached message
with its id overwritten by the query's id and every record's TTL set to
the remaining TTL, sets the status to Responded, and returns
earlyStop = true with no error. -/
theorem cache_hit_reply (getMsgKey : Msg → Option String) (st : CacheState)
    (qCtx : QCtx) (key : String) (r : Msg) (ttl : Nat)
    (hk : getMsgKey qCtx.core.q = some key)
    (hg : st.getOracle key = .hit r ttl) :
    cacheExecES getMsgKey st qCtx =
      ((true, none),
       { qCtx with core :=
          { qCtx.core with
              r := some (SetTTL { r with id := qCtx.core.q.id } ttl),
              status := .responded } }, st) ∧
    (∀ rr ∈ (SetTTL { r with id := qCtx.core.q.id } ttl).answer, rr.ttl = ttl) ∧
    (SetTTL { r with id := qCtx.core.q.id } ttl).id = qCtx.core.q.id := by
  refine ⟨?_, ?_, rfl⟩
  · simp [cacheExecES, searchAndReply, hk, hg]
  · intro rr hrr
    unfold SetTTL at hrr
    simp only [List.mem_map] at hrr
    obtain ⟨a, _, rfl⟩ := hrr
    rfl

/-- C3 witness: a concrete hit replies with the cached response at the
remaining TTL of 42 seconds. -/
theorem cache_hit_reply_witness :
    cacheExecES constKeyFn hitCacheState ⟨sampleCore, []⟩ =
      ((true, none),
       { (⟨sampleCore, []⟩ : QCtx) with core :=
          { sampleCore with
              r := some (SetTTL { sampleResp with
                id := (⟨sampleCore, []⟩ : QCtx).core.q.id } 42),
              status := .responded } }, hitCacheState) ∧
    (∀ rr ∈ (SetTTL { sampleResp with
        id := (⟨sampleCore, []⟩ : QCtx).core.q.id } 42).answer, rr.ttl = 42) ∧
    (SetTTL { sampleResp with
        id := (⟨sampleCore, []⟩ : QCtx).core.q.id } 42).id =
      (⟨sampleCore, []⟩ : QCtx).core.q.id :=
  cache_hit_reply constKeyFn hitCacheState ⟨sampleCore, []⟩ "k" sampleResp 42
    rfl rfl

/-- C4: the cache plugin's `ExecES` and the deferred store's `Exec`
return a nil error for every input, whatever the key function and the
backend oracles do. -/
theorem cache_never_errors (getMsgKey : Msg → Option String) (st : CacheState)
    (qCtx : QCtx) (key : String) (core : Core) :
    (cacheExecES getMsgKey st qCtx).1.2 = none ∧
    (deferCacheStoreRun st key core).2 = none := by
  constructor
  · unfold cacheExecES
    cases hs : searchAndReply getMsgKey st qCtx.core with
    | mk p core2 =>
        obtain ⟨k, hit⟩ := p
        cases hit
        · by_cases hk : k = "" <;> simp [hk]
        · simp
  · rfl

/-- C10: when key derivation succeeds with a non-empty key but the
backend `Get` fails, `ExecES` still registers the deferred store action
and leaves the context core untouched. -/
theorem cache_geterr_keeps_defer (getMsgKey : Msg → Option String)
    (st : CacheState) (qCtx : QCtx) (key : String)
    (hk : getMsgKey qCtx.core.q = some key) (hne : key ≠ "")
    (hg : st.getOracle key = .backendErr) :
    cacheExecES getMsgKey st qCtx =
      ((false, none), ⟨qCtx.core, qCtx.deferred ++ [.cacheStore key]⟩, st) := by
  simp [cacheExecES, searchAndReply, hk, hg, hne]

/-- C10 witness: a concrete failing `Get` still registers the deferred
store under key "k". -/
theorem cache_geterr_keeps_defer_witness :
    cacheExecES constKeyFn getErrCacheState ⟨sampleCore, []⟩ =
      ((false, none),
       ⟨(⟨sampleCore, []⟩ : QCtx).core,
        (⟨sampleCore, []⟩ : QCtx).deferred ++ [.cacheStore "k"]⟩,
       getErrCacheState) :=
  cache_geterr_keeps_defer constKeyFn getErrCacheState ⟨sampleCore, []⟩ "k"
    rfl (by decide) rfl

/-- C8: provided the rest of the chain returns no error, the wrap-around
`Connect` and the `ExecES`-plus-deferred-action pipeline produce the same
final context core, the same backend state and the same error. -/
theorem cache_connect_equiv_deferred (getMsgKey : Msg → Option String)
    (next : ChainFn) (st : CacheState) (core : Core)
    (hnext : ∀ c s, (next c s).2 = none) :
    cacheConnect getMsgKey next st core =
      pipelineWithDeferred getMsgKey next st core := by
  unfold cacheConnect pipelineWithDeferred cacheExecES
  cases hs : searchAndReply getMsgKey st core with
  | mk p core1 =>
      obtain ⟨key, hit⟩ := p
      cases hit
      · dsimp only
        by_cases hk : key = ""
        · subst hk
          have h := hnext core1 st
          cases hn : next core1 st with
          | mk cs e =>
              obtain ⟨core2, st2⟩ := cs
              rw [hn] at h
              simp only at h
              subst h
              simp [runDeferred, hn]
        · have h := hnext core1 st
          cases hn : next core1 st with
          | mk cs e =>
              obtain ⟨core2, st2⟩ := cs
              rw [hn] at h
              simp only at h
              subst h
              simp [runDeferred, hn, hk]
      · simp [runDeferred]

/-- C8 witness: on a concrete miss with a trivial chain, the two modes
agree. -/
theorem cache_connect_equiv_deferred_witness :
    cacheConnect constKeyFn idChain emptyCacheState sampleCore =
      pipelineWithDeferred constKeyFn idChain emptyCacheState sampleCore :=
  cache_connect_equiv_deferred constKeyFn idChain emptyCacheState sampleCore
    (fun _ _ => rfl)

/-- `context.Canceled` / `context.DeadlineExceeded`. -/
inductive CancelErr
  | canceled
  | deadlineExceeded
deriving DecidableEq, Repr

/-- Errors as the handler package sees them: a context cancellation
error, a `handler.PluginError` wrapping an inner error with the plugin's
tag, an error built by `fmt.Errorf`, or an arbitrary error produced by a
plugin's own logic. -/
inductive GoErr
  | cancel (c : CancelErr)
  | pluginError (tag : String) (e : GoErr)
  | errorf (msg : String)
  | errCode (n : Nat)
deriving DecidableEq, Repr

/-- `handler.NewPluginError`. -/
def NewPluginError (tag : String) (e : GoErr) : GoErr := .pluginError tag e

/-- A `context.Context` reduced to what the wrapper reads: `ctx.Err()`,
which is `some c` once the context is cancelled or past its deadline. -/
structure GoCtx where
  err : Option CancelErr
deriving DecidableEq, Repr

/-- The internal state of the wrapped plugin, observed to tell whether
the plugin's own code ran: a plugin role function may change it. -/
abbrev PSt : Type := Nat

/-- A `handler.PipeContext` handle as the wrapper passes it through. -/
structure PipeHandle where
  id : Nat
deriving DecidableEq, Repr

/-- `handler.Executable.Exec`. -/
abbrev ExecFn : Type := GoCtx → Core → PSt → Option GoErr × Core × PSt

/-- `handler.ESExecutable.ExecES`. -/
abbrev ExecESFn : Type := GoCtx → Core → PSt → (Bool × Option GoErr) × Core × PSt

/-- `handler.Matcher.Match`. -/
abbrev MatchFn : Type := GoCtx → Core → PSt → (Bool × Option GoErr) × Core × PSt

/-- `handler.ContextConnector.Connect`. -/
abbrev ConnectFn : Type := GoCtx → Core → PipeHandle → PSt → Option GoErr × Core × PSt

/-- `handler.Service.Shutdown`. -/
abbrev ShutdownFn : Type := PSt → Option GoErr × PSt

/-- A plugin instance: its tag and type, and the capability roles it
implements (a `some` field stands for a successful interface assertion
in `NewPluginWrapper`). -/
structure PluginImpl where
  tag : String
  typ : String
  exec : Option ExecFn
  execES : Option ExecESFn
  matchFn : Option MatchFn
  connectFn : Option ConnectFn
  shutdownFn : Option ShutdownFn

/-- `handler.PluginWrapper`: the plugin plus the role handles computed
once at wrap time. -/
structure PluginWrapper where
  p : PluginImpl
  e : Option ExecFn
  se : Option ExecESFn
  m : Option MatchFn
  cc : Option ConnectFn
  s : Option ShutdownFn

/-- `handler.NewPluginWrapper`: performs each interface assertion once. -/
def NewPluginWrapper (gp : PluginImpl) : PluginWrapper :=
  { p := gp, e := gp.exec, se := gp.execES, m := gp.matchFn,
    cc := gp.connectFn, s := gp.shutdownFn }

/-- `PluginWrapper.Connect`: check `ctx.Err()` first; fail when the
plugin is not a ContextConnector; otherwise dispatch and wrap any plugin
error with the plugin's tag. -/
def PluginWrapper.ConnectDispatch (w : PluginWrapper) (ctx : GoCtx)
    (core : Core) (pipe : PipeHandle) (s : PSt) : Option GoErr × Core × PSt :=
  match ctx.err with
  | some c => (some (.cancel c), core, s)
  | none =>
      match w.cc with
      | none =>
          (some (.errorf ("plugin tag: " ++ w.p.tag ++ ", type: " ++ w.p.typ ++
            " is not a ContextConnector")), core, s)
      | some f =>
          match f ctx core pipe s with
          | (some e, core2, s2) => (some (NewPluginError w.p.tag e), core2, s2)
          | (none, core2, s2) => (none, core2, s2)

/-- `PluginWrapper.Match`: check `ctx.Err()` first; fail when the plugin
is not a Matcher; otherwise dispatch and wrap any plugin error with the
plugin's tag (the matched flag is forced to false on error). -/
def PluginWrapper.MatchDispatch (w : PluginWrapper) (ctx : GoCtx)
    (core : Core) (s : PSt) : (Bool × Option GoErr) × Core × PSt :=
  match ctx.err with
  | some c => ((false, some (.cancel c)), core, s)
  | none =>
      match w.m with
      | none =>
          ((false, some (.errorf ("plugin tag: " ++ w.p.tag ++ ", type: " ++
            w.p.typ ++ " is not a Matcher"))), core, s)
      | some f =>
          match f ctx core s with
          | ((matched, some e), core2, s2) =>
              ((false, some (NewPluginError w.p.tag e)), core2, s2)
          | ((matched, none), core2, s2) => ((matched, none), core2, s2)

/-- `PluginWrapper.ExecES`: check `ctx.Err()` first; dispatch to the
ESExecutable role when present, else adapt the Executable role (earlyStop
stays false), else fail; wrap any plugin error with the plugin's tag
(earlyStop is forced to false on error). -/
def PluginWrapper.ExecESDispatch (w : PluginWrapper) (ctx : GoCtx)
    (core : Core) (s : PSt) : (Bool × Option GoErr) × Core × PSt :=
  match ctx.err with
  | some c => ((false, some (.cancel c)), core, s)
  | none =>
      let step : (Bool × Option GoErr) × Core × PSt :=
        match w.se, w.e with
        | some f, _ => f ctx core s
        | none, some g =>
            match g ctx core s with
            | (err, core2, s2) => ((false, err), core2, s2)
        | none, none =>
            ((false, some (.errorf ("plugin tag: " ++ w.p.tag ++ ", type: " ++
              w.p.typ ++ " is not an ESExecutable nor Executable"))), core, s)
      match step with
      | ((early, some e), core2, s2) =>
          ((false, some (NewPluginError w.p.tag e)), core2, s2)
      | ((early, none), core2, s2) => ((early, none), core2, s2)

/-- `PluginWrapper.Shutdown`: the source takes no context argument; it
fails when the plugin is not a Service and otherwise returns the
service's own result unchanged. -/
def PluginWrapper.ShutdownDispatch (w : PluginWrapper) (s : PSt) :
    Option GoErr × PSt :=
  match w.s with
  | none =>
      (some (.errorf ("plugin tag: " ++ w.p.tag ++ ", type: " ++ w.p.typ ++
        " is not a Service")), s)
  | some f => f s

/-- `handler.PluginInterfaceType`. -/
inductive PluginInterfaceType
  | PITESExecutable
  | PITMatcher
  | PITContextConnector
  | PITService
deriving DecidableEq, Repr

/-- `PluginWrapper.Is`. -/
def PluginWrapper.Is (w : PluginWrapper) : PluginInterfaceType → Bool
  | .PITESExecutable => w.se.isSome || w.e.isSome
  | .PITMatcher => w.m.isSome
  | .PITContextConnector => w.cc.isSome
  | .PITService => w.s.isSome

/-- A cancelled execution context. -/
def cancelledCtx : GoCtx := ⟨some .canceled⟩

/-- A plugin implementing only the Service role, whose shutdown
increments the plugin state (so an invocation is observable). -/
def svcOnlyPlugin : PluginImpl :=
  { tag := "svc", typ := "service", exec := none, execES := none,
    matchFn := none, connectFn := none,
    shutdownFn := some (fun s => (none, (s : Nat) + 1)) }

/-- A plugin implementing only the Service role whose shutdown fails
with the plugin-logic error `errCode 7`. -/
def svcErrPlugin : PluginImpl :=
  { tag := "svcerr", typ := "service", exec := none, execES := none,
    matchFn := none, connectFn := none,
    shutdownFn := some (fun s => (some (.errCode 7), s)) }

/-- C5 counterexample: `Shutdown` takes no execution context in the
source, so with the execution context already cancelled it still invokes
the underlying plugin (the plugin state advances from 0 to 1) and
returns the plugin's nil error rather than the cancellation error. -/
theorem wrapper_shutdown_ignores_cancel_cex :
    cancelledCtx.err = some .canceled ∧
    (NewPluginWrapper svcOnlyPlugin).ShutdownDispatch 0 = (none, 1) ∧
    (NewPluginWrapper svcOnlyPlugin).ShutdownDispatch 0 ≠
      (some (.cancel .canceled), 0) :=
  ⟨rfl, rfl, by decide⟩

/-- C5 (amended): for the dispatch operations that receive the execution
context — ExecES, Match and Connect — an already-cancelled context makes
the wrapper return the cancellation error unwrapped, with the query
context and the plugin state untouched (the underlying plugin is not
invoked, whatever role functions it has). -/
theorem wrapper_cancelled_ctx_short_circuits (w : PluginWrapper)
    (ctx : GoCtx) (core : Core) (pipe : PipeHandle) (s : PSt) (c : CancelErr)
    (h : ctx.err = some c) :
    w.ExecESDispatch ctx core s = ((false, some (.cancel c)), core, s) ∧
    w.MatchDispatch ctx core s = ((false, some (.cancel c)), core, s) ∧
    w.ConnectDispatch ctx core pipe s = (some (.cancel c), core, s) := by
  unfold PluginWrapper.ExecESDispatch PluginWrapper.MatchDispatch
    PluginWrapper.ConnectDispatch
  rw [h]
  exact ⟨rfl, rfl, rfl⟩

/-- C5 witness: the three context-carrying dispatches short-circuit on a
concrete cancelled context, for a concrete wrapper. -/
theorem wrapper_cancelled_ctx_short_circuits_witness :
    (NewPluginWrapper svcOnlyPlugin).ExecESDispatch cancelledCtx sampleCore 0 =
      ((false, some (.cancel .canceled)), sampleCore, 0) ∧
    (NewPluginWrapper svcOnlyPlugin).MatchDispatch cancelledCtx sampleCore 0 =
      ((false, some (.cancel .canceled)), sampleCore, 0) ∧
    (NewPluginWrapper svcOnlyPlugin).ConnectDispatch cancelledCtx sampleCore
      ⟨0⟩ 0 = (some (.cancel .canceled), sampleCore, 0) :=
  wrapper_cancelled_ctx_short_circuits (NewPluginWrapper svcOnlyPlugin)
    cancelledCtx sampleCore ⟨0⟩ 0 .canceled rfl

/-- C6 counterexample: the wrapper's `Shutdown` returns the underlying
service's non-cancellation error `errCode 7` as is, not wrapped in a
`PluginError` carrying the plugin's tag. -/
theorem wrapper_shutdown_error_unwrapped_cex :
    (NewPluginWrapper svcErrPlugin).ShutdownDispatch 0 =
      (some (.errCode 7), 0) ∧
    ¬ ∃ tag e, ((NewPluginWrapper svcErrPlugin).ShutdownDispatch 0).1 =
        some (GoErr.pluginError tag e) := by
  refine ⟨rfl, ?_⟩
  rintro ⟨tag, e, h⟩
  simp only [NewPluginWrapper, PluginWrapper.ShutdownDispatch, svcErrPlugin] at h
  exact absurd (Option.some_inj.mp h) (by simp)

/-- C6 (amended): for ExecES (both the ESExecutable and the adapted
Executable path), Match and Connect, every error returned by the
underlying plugin comes back wrapped as a `PluginError` with the
plugin's tag; `Shutdown` returns the service's error unwrapped. -/
theorem wrapper_wraps_plugin_errors (w : PluginWrapper) (ctx : GoCtx)
    (core : Core) (pipe : PipeHandle) (s : PSt) (hc : ctx.err = none) :
    (∀ f b e core2 s2, w.se = some f → f ctx core s = ((b, some e), core2, s2) →
        w.ExecESDispatch ctx core s =
          ((false, some (GoErr.pluginError w.p.tag e)), core2, s2)) ∧
    (∀ g e core2 s2, w.se = none → w.e = some g →
        g ctx core s = (some e, core2, s2) →
        w.ExecESDispatch ctx core s =
          ((false, some (GoErr.pluginError w.p.tag e)), core2, s2)) ∧
    (∀ f b e core2 s2, w.m = some f → f ctx core s = ((b, some e), core2, s2) →
        w.MatchDispatch ctx core s =
          ((false, some (GoErr.pluginError w.p.tag e)), core2, s2)) ∧
    (∀ f e core2 s2, w.cc = some f →
        f ctx core pipe s = (some e, core2, s2) →
        w.ConnectDispatch ctx core pipe s =
          (some (GoErr.pluginError w.p.tag e), core2, s2)) ∧
    (∀ f e s2, w.s = some f → f s = (some e, s2) →
        w.ShutdownDispatch s = (some e, s2)) := by
  refine ⟨?_, ?_, ?_, ?_, ?_⟩
  · intro f b e core2 s2 hse hf
    unfold PluginWrapper.ExecESDispatch
    rw [hc, hse]
    dsimp only
    rw [hf]
    rfl
  · intro g e core2 s2 hse he hg
    unfold PluginWrapper.ExecESDispatch
    rw [hc, hse, he]
    dsimp only
    rw [hg]
    rfl
  · intro f b e core2 s2 hm hf
    unfold PluginWrapper.MatchDispatch
    rw [hc, hm]
    dsimp only
    rw [hf]
    rfl
  · intro f e core2 s2 hcc hf
    unfold PluginWrapper.ConnectDispatch
    rw [hc, hcc]
    dsimp only
    rw [hf]
    rfl
  · intro f e s2 hsv hf
    unfold PluginWrapper.ShutdownDispatch
    rw [hsv]
    dsimp only
    rw [hf]

/-- A plugin implementing only the Matcher role, whose match always
fails with the plugin-logic error `errCode 9`. -/
def matchErrPlugin : PluginImpl :=
  { tag := "merr", typ := "matcher", exec := none, execES := none,
    matchFn := some (fun _ c s => ((true, some (.errCode 9)), c, s)),
    connectFn := none, shutdownFn := none }

/-- C6 witness: on a live context, a concrete matcher error comes back
wrapped with the tag "merr". -/
theorem wrapper_wraps_plugin_errors_witness :
    (NewPluginWrapper matchErrPlugin).MatchDispatch ⟨none⟩ sampleCore 0 =
      ((false, some (GoErr.pluginError (NewPluginWrapper matchErrPlugin).p.tag
        (.errCode 9))), sampleCore, 0) :=
  (wrapper_wraps_plugin_errors (NewPluginWrapper matchErrPlugin) ⟨none⟩
    sampleCore ⟨0⟩ 0 rfl).2.2.1
    (fun _ c s => ((true, some (.errCode 9)), c, s)) true (.errCode 9)
    sampleCore 0 rfl rfl

/-- A plugin implementing only the Executable role, built over an
arbitrary exec function. -/
def execOnlyPlugin (tag typ : String) (g : ExecFn) : PluginImpl :=
  { tag := tag, typ := typ, exec := some g, execES := none,
    matchFn := none, connectFn := none, shutdownFn := none }

/-- C7: a plugin implementing only Executable reports
`Is(PITESExecutable) = true`; its `ExecES` never returns
earlyStop = true, and on a live context it dispatches to the plugin's
`Exec`, forcing earlyStop to false and wrapping any error with the tag. -/
theorem wrapper_exec_only_adapts (tag typ : String) (g : ExecFn) :
    (NewPluginWrapper (execOnlyPlugin tag typ g)).Is .PITESExecutable = true ∧
    (∀ ctx core s,
      ((NewPluginWrapper (execOnlyPlugin tag typ g)).ExecESDispatch
        ctx core s).1.1 = false) ∧
    (∀ core s,
      (NewPluginWrapper (execOnlyPlugin tag typ g)).ExecESDispatch
          ⟨none⟩ core s =
        match g ⟨none⟩ core s with
        | (some e, core2, s2) =>
            ((false, some (GoErr.pluginError tag e)), core2, s2)
        | (none, core2, s2) => ((false, none), core2, s2)) := by
  refine ⟨rfl, ?_, ?_⟩
  · intro ctx core s
    unfold PluginWrapper.ExecESDispatch
    cases hctx : ctx.err with
    | some c => rfl
    | none =>
        simp only [NewPluginWrapper, execOnlyPlugin]
        cases hg : g ctx core s with
        | mk e rest =>
            obtain ⟨core2, s2⟩ := rest
            cases e <;> rfl
  · intro core s
    unfold PluginWrapper.ExecESDispatch
    simp only [NewPluginWrapper, execOnlyPlugin]
    cases hg : g ⟨none⟩ core s with
    | mk e rest =>
        obtain ⟨core2, s2⟩ := rest
        cases e <;> rfl

/-- Whether `p` is a prefix of `s`, over character lists. -/
def charsPrefix : List Char → List Char → Bool
  | [], _ => true
  | _ :: _, [] => false
  | a :: ps, b :: ss => a == b && charsPrefix ps ss

/-- Whether `p` occurs as a contiguous run somewhere in the second list. -/
def charsInfix (p : List Char) : List Char → Bool
  | [] => charsPrefix p []
  | b :: ss => charsPrefix p (b :: ss) || charsInfix p ss

/-- Modelled from the spec: literal domains are "case-insensitive, matched
against fully-qualified names"; names and literal patterns are compared
case-folded and with the trailing root dot removed. -/
def normalizeName (s : String) : String :=
  let cs := s.data.map Char.toLower
  match cs.getLast? with
  | some '.' => ⟨cs.dropLast⟩
  | _ => ⟨cs⟩

/-- Modelled from the spec: "regexp patterns match per their expression
verbatim — implementers must not silently anchor or unanchor patterns".
The expression language is restricted to the fragment the spec's table
exercises: literal text with the `^` and `$` anchors as written. -/
structure RE where
  anchorStart : Bool
  anchorEnd : Bool
  body : String
deriving DecidableEq, Repr

/-- Regexp matching for the restricted fragment: anchors constrain where
the literal body must occur. -/
def RE.matches (re : RE) (s : String) : Bool :=
  match re.anchorStart, re.anchorEnd with
  | true, true => re.body == s
  | true, false => charsPrefix re.body.data s.data
  | false, true => charsPrefix re.body.data.reverse s.data.reverse
  | false, false => charsInfix re.body.data s.data

/-- A hosts table pattern: an exact literal domain or a regexp. -/
inductive HostPattern
  | literalPat (name : String)
  | regexpPat (re : RE)
deriving DecidableEq, Repr

/-- Parse the restricted regexp fragment: an optional leading `^`, an
optional trailing `$`, a literal body. -/
def parseRE (cs : List Char) : RE :=
  match cs with
  | '^' :: rest =>
      (match rest.getLast? with
       | some '$' => ⟨true, true, ⟨rest.dropLast⟩⟩
       | _ => ⟨true, false, ⟨rest⟩⟩)
  | _ =>
      (match cs.getLast? with
       | some '$' => ⟨false, true, ⟨cs.dropLast⟩⟩
       | _ => ⟨false, false, ⟨cs⟩⟩)

/-- Modelled from the spec: a pattern is "either a literal domain … or a
`regexp:`-prefixed pattern". -/
def parsePattern (p : String) : HostPattern :=
  if charsPrefix "regexp:".data p.data then
    .regexpPat (parseRE (p.data.drop 7))
  else .literalPat (normalizeName p)

/-- Modelled from the spec: `domain.MixMatcher`, "a matching engine
supporting multiple pattern kinds (literal, regexp) over the same
namespace": a map from exact names to addresses plus an ordered regexp
list. -/
structure MixMatcher where
  full : List (String × List String)
  regexps : List (RE × List String)
deriving DecidableEq, Repr

/-- Append addresses for an exact name: "multiple source lines for the
same exact pattern are *appended*, not replaced". -/
def appendExact : List (String × List String) → String → List String →
    List (String × List String)
  | [], name, addrs => [(name, addrs)]
  | (n, a0) :: rest, name, addrs =>
      if n = name then (n, a0 ++ addrs) :: rest
      else (n, a0) :: appendExact rest name addrs

/-- Load one table line `<pattern> <addr1> [addr2 ...]` into the matcher. -/
def loadLine (m : MixMatcher) (pat : String) (addrs : List String) : MixMatcher :=
  match parsePattern pat with
  | .literalPat name => { m with full := appendExact m.full name addrs }
  | .regexpPat re => { m with regexps := m.regexps ++ [(re, addrs)] }

/-- Modelled from the spec: `domain.LoadFromTextReader` over the
non-comment, non-blank lines of the table, in order. -/
def loadTable (lines : List (String × List String)) : MixMatcher :=
  lines.foldl (fun m l => loadLine m l.1 l.2) ⟨[], []⟩

/-- Exact lookup: a literal pattern matches only the exact (normalized)
name. -/
def lookupFull : List (String × List String) → String → Option (List String)
  | [], _ => none
  | (n, a) :: rest, name => if n = name then some a else lookupFull rest name

/-- First regexp whose expression matches the (normalized) name. -/
def lookupRegexp : List (RE × List String) → String → Option (List String)
  | [], _ => none
  | (re, a) :: rest, name =>
      if re.matches name then some a else lookupRegexp rest name

/-- Match a fully-qualified query name: exact literal lookup first, then
the regexp patterns in table order. -/
def MixMatcher.Match (m : MixMatcher) (fqdn : String) : Option (List String) :=
  let name := normalizeName fqdn
  match lookupFull m.full name with
  | some a => some a
  | none => lookupRegexp m.regexps name

/-- `dns.TypeA`. -/
def TypeA : Nat := 1

/-- `dns.TypeAAAA`. -/
def TypeAAAA : Nat := 28

/-- An address literal is IPv6 when it contains a colon. -/
def isIPv6Literal (a : String) : Bool := a.data.contains ':'

/-- Modelled from the spec: "the engine synthesizes answer records for
exactly the matched entry's addresses of the matching family (v4 for A,
v6 for AAAA)"; the response copies the query's id, has success status
and is not truncated. -/
def synthesizeAnswer (q : Msg) (addrs : List String) : Msg :=
  let fam := if q.qtype = TypeAAAA then addrs.filter isIPv6Literal
             else addrs.filter (fun a => ! isIPv6Literal a)
  { id := q.id, rcode := RcodeSuccess, truncated := false,
    qname := q.qname, qtype := q.qtype,
    answer := fam.map (fun a => ⟨3600, a⟩) }

/-- Modelled from the spec: `hostsContainer.matchAndSet` — for an A or
AAAA query whose name the table matches, set the synthesized answer and
the Responded status; otherwise leave the context untouched and report
matched = false. -/
def matchAndSet (m : MixMatcher) (core : Core) : Bool × Core :=
  if core.q.qtype = TypeA ∨ core.q.qtype = TypeAAAA then
    match m.Match core.q.qname with
    | none => (false, core)
    | some addrs =>
        (true, { core with r := some (synthesizeAnswer core.q addrs),
                           status := .responded })
  else (false, core)

/-- The hosts table of the repository's test (`test_hosts`), with the
comment and blank lines already skipped by the loader. -/
def testHosts : List (String × List String) :=
  [("dns.google",
    ["8.8.8.8", "8.8.4.4", "2001:4860:4860::8844", "2001:4860:4860::8888"]),
   ("regexp:^123456789", ["192.168.1.1"]),
   ("test.com", ["1.2.3.4"]),
   ("test.com", ["2.3.4.5"])]

/-- The loaded matcher of the repository's test. -/
def testMatcher : MixMatcher := loadTable testHosts

/-- A query message with a fresh id asking `name` at type `t`. -/
def mkQuery (name : String) (t : Nat) : Msg := ⟨0, 0, false, name, t, []⟩

/-- The rdata strings of the answer a matched query context carries. -/
def answerAddrs (p : Bool × Core) : Option (List String) :=
  p.2.r.map (fun r => r.answer.map RR.rdata)

/-- C9: over the loaded test table — a literal entry is matched only by
its exact name (the only exact keys are "dns.google" and "test.com", and
`sub.dns.google.` does not match); the regexp `^123456789` matches
`123456789.test.` but, its anchor respected, not `0123456789.test.`;
and the two `test.com` lines are appended, so `test.com.` resolves to
the union of both addresses. -/
theorem hosts_match_semantics :
    (∀ name a, lookupFull testMatcher.full name = some a →
        name = "dns.google" ∨ name = "test.com") ∧
    (matchAndSet testMatcher ⟨mkQuery "dns.google." TypeA, none, .unset⟩).1
      = true ∧
    matchAndSet testMatcher ⟨mkQuery "sub.dns.google." TypeA, none, .unset⟩
      = (false, ⟨mkQuery "sub.dns.google." TypeA, none, .unset⟩) ∧
    (matchAndSet testMatcher ⟨mkQuery "123456789.test." TypeA, none, .unset⟩).1
      = true ∧
    answerAddrs
      (matchAndSet testMatcher ⟨mkQuery "123456789.test." TypeA, none, .unset⟩)
      = some ["192.168.1.1"] ∧
    matchAndSet testMatcher ⟨mkQuery "0123456789.test." TypeA, none, .unset⟩
      = (false, ⟨mkQuery "0123456789.test." TypeA, none, .unset⟩) ∧
    (matchAndSet testMatcher ⟨mkQuery "test.com." TypeA, none, .unset⟩).1
      = true ∧
    answerAddrs
      (matchAndSet testMatcher ⟨mkQuery "test.com." TypeA, none, .unset⟩)
      = some ["1.2.3.4", "2.3.4.5"] := by
  have hfull : testMatcher.full =
      [("dns.google",
        ["8.8.8.8", "8.8.4.4", "2001:4860:4860::8844", "2001:4860:4860::8888"]),
       ("test.com", ["1.2.3.4", "2.3.4.5"])] := by decide
  refine ⟨?_, by decide, by decide, by decide, by decide, by decide,
    by decide, by decide⟩
  intro name a h
  rw [hfull] at h
  by_cases h1 : ("dns.google" : String) = name
  · exact Or.inl h1.symm
  · by_cases h2 : ("test.com" : String) = name
    · exact Or.inr h2.symm
    · simp only [lookupFull, h1, h2, if_false] at h
      exact Option.noConfusion h

end Mosdns
